/-
Verification of the llm-wrapper-mcp-server request pipeline.

Shallow embedding of the Python sources:
  - src/llm_wrapper_mcp_server/llm_mcp_wrapper.py          (LLMMCPWrapper)
  - src/llm_wrapper_mcp_server/llm_client_parts/_llm_client_core.py (LLMClient)
  - src/llm_wrapper_mcp_server/llm_client_parts/_accounting.py      (LLMAccountingManager)
  - src/llm_wrapper_mcp_server/llm_client_parts/_config.py

Modelling conventions:
  - Python strings are `List Char`; Python substring tests are `List.IsInfix`.
  - The remote HTTP endpoint, the tokenizer, and the accounting storage are
    external collaborators; they enter as explicit oracles (`HttpOutcome`,
    a `tok` function in the wrapper state, `SinkBehavior`).
  - Python exceptions are an explicit `PyExc` value threaded through `Except`.
    The text of interpreter-generated TypeError/AttributeError messages is
    abstracted (only their propagation path matters, never their wording).
-/
import Mathlib

set_option maxHeartbeats 1000000

namespace LlmWrap

/-- A single-quote character, used to reproduce quoted fragments of the
    literal message strings of the source. -/
def squote : List Char := [Char.ofNat 39]

/-- JSON scalar values as they arrive in a parsed request.  The wrapper reads
    `arguments.prompt` / `arguments.model` untyped, so non-string values can
    reach string operations (Python then raises TypeError/AttributeError). -/
inductive JVal where
  | jnull
  | jbool (b : Bool)
  | jnum (n : Int)
  | jstr (s : List Char)
deriving DecidableEq

/-- Python truthiness of a `JVal` (`if not prompt:` in handle_request). -/
def truthy : JVal → Bool
  | .jnull => false
  | .jbool b => b
  | .jnum n => n != 0
  | .jstr s => !s.isEmpty

/-- Python type name of a `JVal`, used in interpreter error texts. -/
def typeName : JVal → List Char
  | .jnull => "NoneType".toList
  | .jbool _ => "bool".toList
  | .jnum _ => "int".toList
  | .jstr _ => "str".toList

/-- Characters removed by Python `str.strip()`. -/
def isPySpace (c : Char) : Bool :=
  c = ' ' || c = '\t' || c = '\n' || c = '\r' || c = Char.ofNat 11 || c = Char.ofNat 12

/-- Python `str.strip()`: drop whitespace from both ends. -/
def trimChars (l : List Char) : List Char :=
  ((l.dropWhile isPySpace).reverse.dropWhile isPySpace).reverse

/-- Python `str.split(sep)` for a single-character separator. -/
def splitOnChar (sep : Char) : List Char → List (List Char)
  | [] => [[]]
  | c :: rest =>
    if c = sep then [] :: splitOnChar sep rest
    else
      match splitOnChar sep rest with
      | [] => [[c]]
      | p :: ps => (c :: p) :: ps

/-- Failure classification of the inline model-override validation
    (llm_mcp_wrapper.py lines 194-219). -/
inductive ModelErr where
  | tooShort
  | missingSeparator
  | malformed
deriving DecidableEq

/-- The model-override validation of handle_request, checked in source order:
    strip; length < 2; no slash; split must give exactly two non-empty parts.
    On success returns the stripped string unchanged. -/
def validate_model (raw : List Char) : Except ModelErr (List Char) :=
  let s := trimChars raw
  if s.length < 2 then .error .tooShort
  else if ¬ ('/' ∈ s) then .error .missingSeparator
  else if (splitOnChar '/' s).length ≠ 2 ∨ (splitOnChar '/' s).any (·.isEmpty) then
    .error .malformed
  else .ok s

/-- The fixed redaction placeholder of LLMClient.redact_api_key. -/
def PLACEHOLDER : List Char := "(API key redacted due to security reasons)".toList

/-- Worker for Python `str.replace(key, repl)`: scan left to right, replacing
    each leftmost occurrence of `key` and resuming after it.  The fuel
    argument only bounds the recursion depth; every caller supplies at least
    the length of the scanned list, so the out-of-fuel branch is never hit. -/
def replaceGo (key repl : List Char) : Nat → List Char → List Char
  | _, [] => []
  | 0, c :: rest => c :: rest
  | fuel + 1, c :: rest =>
    if key ≠ [] ∧ key <+: (c :: rest) then
      repl ++ replaceGo key repl fuel ((c :: rest).drop key.length)
    else
      c :: replaceGo key repl fuel rest

/-- Python `str.replace(key, repl)`: replace the leftmost non-overlapping
    occurrences of `key`, scanning left to right. -/
def replaceList (key repl s : List Char) : List Char :=
  replaceGo key repl s.length s

/-- LLMClient.redact_api_key (_llm_client_core.py lines 229-238).
    `skip` is the skip_redaction flag of the client; `key` its api_key. -/
def redact_api_key (skip : Bool) (key content : List Char) : List Char :=
  if skip then content
  else if key ≠ [] ∧ key <:+: content then replaceList key PLACEHOLDER content
  else content

/-- The configuration an LLMClient instance carries after a successful
    __init__ (_llm_client_core.py).  The system prompt and tokenizer are
    external collaborators and are not part of the claims about this type. -/
structure ClientConfig where
  model : List Char
  apiKey : List Char
  baseUrl : List Char
  enableLogging : Bool
  enableRateLimiting : Bool
  enableAuditLog : Bool
  skipOutboundKeyChecks : Bool
deriving DecidableEq

/-- `api_key or os.getenv("OPENROUTER_API_KEY")`: the explicit parameter wins
    unless it is falsy (None or empty), in which case the environment value
    (possibly absent) is used. -/
def resolvedKey (param env : Option (List Char)) : Option (List Char) :=
  match param with
  | some k => if k.isEmpty then env else some k
  | none => env

/-- `os.getenv("LLM_API_BASE_URL", default)` part of get_api_base_url. -/
def envBaseOr (env : Option (List Char)) : List Char :=
  match env with
  | some v => v
  | none => "https://openrouter.ai/api/v1".toList

/-- get_api_base_url (_config.py): `api_base_url or os.getenv(...)`. -/
def get_api_base_url (param env : Option (List Char)) : List Char :=
  match param with
  | some u => if u.isEmpty then envBaseOr env else u
  | none => envBaseOr env

/-- The required credential shape: starts with "sk-" and has length >= 32. -/
def skPre : List Char := "sk-".toList

/-- ValueError message for a falsy resolved key. -/
def keyNotSetText : List Char :=
  "OPENROUTER_API_KEY environment variable not set".toList

/-- ValueError message for a malformed key. -/
def keyBadFormatText : List Char :=
  "Invalid OPENROUTER_API_KEY format - must start with ".toList ++ squote ++
    "sk-".toList ++ squote ++ " and be at least 32 characters".toList

/-- LLMClient.__init__ (_llm_client_core.py lines 16-76): resolve the key,
    reject a falsy or malformed one with ValueError (the error message), else
    build the client configuration.  Returns the ValueError text on failure. -/
def mkLLMClient (model : List Char) (apiBaseUrl : Option (List Char))
    (apiKeyParam : Option (List Char)) (envApiKey : Option (List Char))
    (envBaseUrl : Option (List Char))
    (enableLogging enableRateLimiting enableAuditLog skipOutboundKeyChecks : Bool) :
    Except (List Char) ClientConfig :=
  match resolvedKey apiKeyParam envApiKey with
  | none => .error keyNotSetText
  | some k =>
    if k.isEmpty then .error keyNotSetText
    else if ¬ (skPre <+: k ∧ 32 ≤ k.length) then .error keyBadFormatText
    else .ok { model := model, apiKey := k,
               baseUrl := get_api_base_url apiBaseUrl envBaseUrl,
               enableLogging := enableLogging,
               enableRateLimiting := enableRateLimiting,
               enableAuditLog := enableAuditLog,
               skipOutboundKeyChecks := skipOutboundKeyChecks }

/-- Python exceptions relevant to the pipeline, as values.  The `msg` fields
    model `str(e)`. -/
inductive PyExc where
  | timeoutExc (msg : List Char)
  | httpErrorExc (status : Nat) (reason : List Char) (retryAfter : Option (List Char))
  | requestExc (msg : List Char)
  | keyErrorExc (msg : List Char)
  | runtimeError (msg : List Char)
  | valueError (msg : List Char)
  | typeError (msg : List Char)
  | attributeError (msg : List Char)
  | otherExc (msg : List Char)
deriving DecidableEq

/-- Behavior of the external accounting/audit collaborators for one call:
    which sinks were successfully constructed, and whether each underlying
    storage operation raises when invoked. -/
structure SinkBehavior where
  auditPresent : Bool
  trackerPresent : Bool
  promptLogFails : Bool
  responseLogFails : Bool
  usageTrackFails : Bool
deriving DecidableEq

/-- Abstracted `str(e)` of a failing AuditLogger.log_prompt call. -/
def promptLogFailText : List Char := "audit log_prompt storage failure".toList

/-- Abstracted `str(e)` of a failing AuditLogger.log_response call. -/
def responseLogFailText : List Char := "audit log_response storage failure".toList

/-- LLMAccountingManager.log_prompt (_accounting.py lines 62-64): forwarded to
    the audit logger when present, with NO exception handling around it. -/
def mgrLogPrompt (sb : SinkBehavior) : Except PyExc Unit :=
  if sb.auditPresent then
    if sb.promptLogFails then .error (.otherExc promptLogFailText) else .ok ()
  else .ok ()

/-- LLMAccountingManager.log_response (_accounting.py lines 66-68): forwarded
    to the audit logger when present, with NO exception handling around it. -/
def mgrLogResponse (sb : SinkBehavior) : Except PyExc Unit :=
  if sb.auditPresent then
    if sb.responseLogFails then .error (.otherExc responseLogFailText) else .ok ()
  else .ok ()

/-- The raw backend call inside LLMAccountingManager.track_usage. -/
def rawTrackUsage (sb : SinkBehavior) : Except PyExc Unit :=
  if sb.usageTrackFails then .error (.otherExc "accounting track_usage storage failure".toList)
  else .ok ()

/-- LLMAccountingManager.track_usage (_accounting.py lines 55-60): the backend
    call is wrapped in try/except; any raised exception is logged and
    swallowed, so the operation never fails. -/
def mgrTrackUsage (sb : SinkBehavior) : Except PyExc Unit :=
  if sb.trackerPresent then
    match rawTrackUsage sb with
    | .ok _ => .ok ()
    | .error _ => .ok ()
  else .ok ()

/-- Outcome of the single outbound HTTP POST, as decided by the remote
    endpoint (an oracle for the embedding): a 2xx reply with extracted
    `choices[0].message.content`, a non-2xx status (with the Retry-After
    header when present), a transport failure, or a 2xx reply whose JSON body
    is missing the choices array / the message content. -/
inductive HttpOutcome where
  | success (content : List Char)
  | httpError (status : Nat) (reason : List Char) (retryAfter : Option (List Char))
  | timeout (msg : List Char)
  | networkError (msg : List Char)
  | malformedChoices
  | malformedMessage
deriving DecidableEq

/-- LLMClient._send_llm_request (_llm_client_core.py lines 185-227):
    raise_for_status on non-2xx, validate the body shape, extract the content
    and apply redact_api_key to it before returning. -/
def sendLlmRequest (cfg : ClientConfig) (out : HttpOutcome) : Except PyExc (List Char) :=
  match out with
  | .success content =>
    .ok (redact_api_key cfg.skipOutboundKeyChecks cfg.apiKey content)
  | .httpError s reason ra => .error (.httpErrorExc s reason ra)
  | .timeout m => .error (.timeoutExc m)
  | .networkError m => .error (.requestExc m)
  | .malformedChoices =>
    .error (.runtimeError "Invalid API response format: Missing choices array".toList)
  | .malformedMessage =>
    .error (.runtimeError "Invalid API response format: Missing message content".toList)

/-- Decimal rendering of a Nat, for message interpolation. -/
def natChars (n : Nat) : List Char := (toString n).toList

/-- The rate-limit RuntimeError message built in generate_response. -/
def rateLimitMsg (ra : Option (List Char)) : List Char :=
  "API rate limit exceeded: Retry after ".toList ++ ra.getD "60".toList ++
    " seconds".toList

/-- The except-clauses of LLMClient.generate_response (lines 165-183): convert
    an HTTPError into the rate-limit or HTTP RuntimeError, any other requests
    exception (timeouts included) into the network RuntimeError, a KeyError
    into the format RuntimeError; everything else propagates unchanged. -/
def convertExc : PyExc → PyExc
  | .httpErrorExc s reason ra =>
    if s = 429 then .runtimeError (rateLimitMsg ra)
    else .runtimeError ("API HTTP error: ".toList ++ natChars s ++ " ".toList ++ reason)
  | .timeoutExc m => .runtimeError ("Network error: ".toList ++ m)
  | .requestExc m => .runtimeError ("Network error: ".toList ++ m)
  | .keyErrorExc m => .runtimeError ("Unexpected API response format: ".toList ++ m)
  | e => e

/-- The try-block of LLMClient.generate_response (lines 101-163), in source
    order: log the outbound prompt, send the request, log the reply, record
    usage, return the content.  The second component records whether the
    outbound HTTP request was actually attempted. -/
def tryBlockRun (cfg : ClientConfig) (sb : SinkBehavior) (out : HttpOutcome) :
    Except PyExc (List Char) × Bool :=
  match mgrLogPrompt sb with
  | .error e => (.error e, false)
  | .ok _ =>
    match sendLlmRequest cfg out with
    | .error e => (.error e, true)
    | .ok content =>
      match mgrLogResponse sb with
      | .error e => (.error e, true)
      | .ok _ =>
        match mgrTrackUsage sb with
        | .error e => (.error e, true)
        | .ok _ => (.ok content, true)

/-- LLMClient.generate_response: run the try-block; on failure apply the
    except-clause conversions.  (The returned dict also carries token counts
    and usage headers; only the response text matters to the claims.) -/
def generate_response (cfg : ClientConfig) (sb : SinkBehavior) (out : HttpOutcome) :
    Except PyExc (List Char) :=
  match (tryBlockRun cfg sb out).1 with
  | .ok c => .ok c
  | .error e => .error (convertExc e)

/-- Whether a generate_response call reached the outbound HTTP POST. -/
def httpWasAttempted (cfg : ClientConfig) (sb : SinkBehavior) (out : HttpOutcome) : Bool :=
  (tryBlockRun cfg sb out).2

/-- JSON-RPC ids; null and absent both become `none`. -/
def RId := Option Int
deriving instance DecidableEq for RId

/-- The body of a JSON-RPC reply written by the wrapper: the fixed results of
    the protocol methods, the tools/call success envelope (content array with
    isError false), or an error object (code, message, data). -/
inductive RBody where
  | initResult
  | toolsListResult
  | resourcesListResult
  | templatesListResult
  | content (text : List Char)
  | err (code : Int) (message : List Char) (data : List Char)
deriving DecidableEq

/-- A JSON-RPC response line. -/
structure Response where
  id : RId
  body : RBody
deriving DecidableEq

/-- The LLMMCPWrapper state after __init__ (llm_mcp_wrapper.py lines 22-82):
    the persistent LLMClient, the limits and toggles, the env credential used
    by the outbound key check, and the registered tool names.  `tok` is the
    external tiktoken encoder, as a token-count oracle. -/
structure WrapperState where
  client : ClientConfig
  maxUserPromptTokens : Nat
  maxTokens : Option Nat
  skipOutboundKeyChecks : Bool
  openrouterApiKey : Option (List Char)
  envBaseUrl : Option (List Char)
  enableLogging : Bool
  enableRateLimiting : Bool
  enableAuditLog : Bool
  tools : List (List Char)
  tok : List Char → Nat

/-- The one-shot client construction for a model override (llm_mcp_wrapper.py
    lines 224-233): same credential and base URL as the persistent client,
    toggles from the wrapper, a ValueError on a failed re-validation. -/
def mkTempClient (st : WrapperState) (m : List Char) : Except PyExc ClientConfig :=
  match mkLLMClient m (some st.client.baseUrl) (some st.client.apiKey)
      st.openrouterApiKey st.envBaseUrl st.enableLogging st.enableRateLimiting
      st.enableAuditLog st.skipOutboundKeyChecks with
  | .ok c => .ok c
  | .error msg => .error (.valueError msg)

/-- tools/call arguments as read from `params.arguments`. -/
structure ToolCallArgs where
  prompt : Option JVal
  model : Option JVal
deriving DecidableEq

/-- A parsed JSON-RPC request, dispatched by method name. -/
inductive Request where
  | initReq (rid : RId)
  | toolsList (rid : RId)
  | toolsCall (rid : RId) (name : Option (List Char)) (args : ToolCallArgs)
  | resourcesList (rid : RId)
  | resourcesTemplatesList (rid : RId)
  | unknown (rid : RId) (method : List Char)

/-- Error body of the outer exception handler of handle_request (lines
    288-294): code -32000, message "Internal error", data str(e). -/
def outerInternalBody (excText : List Char) : RBody :=
  .err (-32000) "Internal error".toList excText

/-- Abstracted TypeError text of `key in prompt` on a non-string prompt. -/
def iterTypeErrText (v : JVal) : List Char :=
  "argument of type ".toList ++ typeName v ++ " is not iterable".toList

/-- Abstracted TypeError text of `encoder.encode(prompt)` on a non-string. -/
def encodeTypeErrText (v : JVal) : List Char :=
  "encode expected a string, got ".toList ++ typeName v

/-- Abstracted AttributeError text of `model_arg.strip()` on a non-string. -/
def stripAttrErrText (v : JVal) : List Char :=
  typeName v ++ " object has no attribute strip".toList

/-- The -32602 presence rejection (lines 150-162). -/
def presenceBody : RBody :=
  .err (-32602) "Invalid params".toList
    ("Missing required ".toList ++ squote ++ "prompt".toList ++ squote ++
      " argument".toList)

/-- The -32602 security rejection (lines 164-175). -/
def securityBody : RBody :=
  .err (-32602) "Security violation".toList
    "Prompt contains sensitive API key - request rejected".toList

/-- The -32602 token-budget rejection (lines 179-189), quoting the limit. -/
def budgetBody (maxTokens : Nat) : RBody :=
  .err (-32602) "Invalid params".toList
    ("Prompt exceeds maximum length of ".toList ++ natChars maxTokens ++
      " tokens".toList)

/-- The three -32602 model-specification rejections (lines 196-218). -/
def modelErrBody : ModelErr → RBody
  | .tooShort =>
    .err (-32602) "Invalid model specification".toList
      "Model name must be at least 2 characters".toList
  | .missingSeparator =>
    .err (-32602) "Invalid model specification".toList
      ("Model name must contain a ".toList ++ squote ++ "/".toList ++ squote ++
        " separator".toList)
  | .malformed =>
    .err (-32602) "Invalid model specification".toList
      ("Model name must contain a provider and a model separated by a single ".toList ++
        squote ++ "/".toList ++ squote)

/-- Prompt-presence check (lines 150-162): absent or falsy prompt is rejected. -/
def presenceStage (v? : Option JVal) : Except RBody JVal :=
  match v? with
  | some v => if truthy v then .ok v else .error presenceBody
  | none => .error presenceBody

/-- Outbound key-leak check (lines 164-175): active only when checks are not
    skipped and the env credential is truthy; a substring hit rejects the
    request, and a non-string prompt makes `in` raise TypeError (handled by
    the outer handler). -/
def secretStage (st : WrapperState) (v : JVal) : Except RBody JVal :=
  match st.skipOutboundKeyChecks, st.openrouterApiKey with
  | false, some k =>
    if k.isEmpty then .ok v
    else
      match v with
      | .jstr s => if k <:+: s then .error securityBody else .ok v
      | _ => .error (outerInternalBody (iterTypeErrText v))
  | _, _ => .ok v

/-- Token-budget check (lines 177-189): encode the prompt (TypeError on a
    non-string) and reject a count strictly above the configured maximum. -/
def tokenStage (st : WrapperState) (v : JVal) : Except RBody (List Char) :=
  match v with
  | .jstr s =>
    if st.tok s > st.maxUserPromptTokens then .error (budgetBody st.maxUserPromptTokens)
    else .ok s
  | _ => .error (outerInternalBody (encodeTypeErrText v))

/-- Model-override validation (lines 191-219): absent override passes through;
    a string override goes through validate_model; a non-string makes
    `.strip()` raise AttributeError (handled by the outer handler). -/
def modelStage (m? : Option JVal) : Except RBody (Option (List Char)) :=
  match m? with
  | none => .ok none
  | some (.jstr m) =>
    match validate_model m with
    | .error e => .error (modelErrBody e)
    | .ok m' => .ok (some m')
  | some v => .error (outerInternalBody (stripAttrErrText v))

/-- `str(e)` for the error-message classifier. -/
def strOfExc : PyExc → List Char
  | .timeoutExc m => m
  | .httpErrorExc s reason _ => natChars s ++ " ".toList ++ reason
  | .requestExc m => m
  | .keyErrorExc m => m
  | .runtimeError m => m
  | .valueError m => m
  | .typeError m => m
  | .attributeError m => m
  | .otherExc m => m

/-- The error-message classifier of the inner except clause of handle_request
    (lines 250-264): sniff the exception type in source order; a RuntimeError
    whose text carries one of the three known markers keeps its text. -/
def classifyError (e : PyExc) : List Char :=
  match e with
  | .timeoutExc _ => "LLM call timed out.".toList
  | .httpErrorExc s reason _ =>
    "LLM API HTTP error: ".toList ++ natChars s ++ " ".toList ++ reason
  | .requestExc m => "LLM API network error: ".toList ++ m
  | .runtimeError m =>
    if "API rate limit exceeded".toList <:+: m ∨
        "Invalid API response format".toList <:+: m ∨
        "Unexpected API response format".toList <:+: m then m
    else "Internal error: ".toList ++ m
  | e => "Internal error: ".toList ++ strOfExc e

/-- Fixed data field of the inner -32000 error response (line 270). -/
def internalDataText : List Char :=
  "Internal server error. Check server logs for details.".toList

/-- The client the dispatch step uses: the persistent one, or a fresh one-shot
    client when a validated override is present (lines 221-234). -/
def clientForDispatch (st : WrapperState) (mtu : Option (List Char)) :
    Except PyExc ClientConfig :=
  match mtu with
  | none => .ok st.client
  | some m => mkTempClient st m

/-- Result of the dispatch step: the reply body, whether the outbound HTTP
    request was attempted, whether a one-shot client was used, and which
    client configuration served the call. -/
structure DispatchResult where
  body : RBody
  httpAttempted : Bool
  usedTemp : Bool
  usedClient : Option ClientConfig
deriving DecidableEq

/-- The dispatch-and-reply step (lines 221-272): build the client (one-shot on
    override), call generate_response, wrap success in the content envelope;
    any exception is classified into a -32000 error response. -/
def dispatchStage (st : WrapperState) (mtu : Option (List Char))
    (sb : SinkBehavior) (out : HttpOutcome) : DispatchResult :=
  match clientForDispatch st mtu with
  | .error e =>
    { body := .err (-32000) (classifyError e) internalDataText,
      httpAttempted := false, usedTemp := false, usedClient := none }
  | .ok c =>
    match generate_response c sb out with
    | .ok text =>
      { body := .content text, httpAttempted := httpWasAttempted c sb out,
        usedTemp := mtu.isSome, usedClient := some c }
    | .error e =>
      { body := .err (-32000) (classifyError e) internalDataText,
        httpAttempted := httpWasAttempted c sb out,
        usedTemp := mtu.isSome, usedClient := some c }

/-- Everything handle_request produces for one request: the single response it
    writes, the observable gateway activity, and the wrapper state afterwards
    (handle_request never mutates the wrapper, so it is returned unchanged). -/
structure HandleOutcome where
  response : Response
  httpAttempted : Bool
  usedTemp : Bool
  usedClient : Option ClientConfig
  stateAfter : WrapperState

/-- Name shown in the tool-not-found message (Tool ... not found,
    where an absent name prints as None). -/
def nameText : Option (List Char) → List Char
  | some n => n
  | none => "None".toList

/-- The tools/call branch of handle_request (lines 132-272): tool lookup, then
    the four validation stages in source order, then dispatch. -/
def handleToolsCall (st : WrapperState) (rid : RId) (name : Option (List Char))
    (args : ToolCallArgs) (sb : SinkBehavior) (out : HttpOutcome) : HandleOutcome :=
  if (match name with | some n => decide (n ∈ st.tools) | none => false) then
    let staged : Except RBody DispatchResult := do
      let v ← presenceStage args.prompt
      let v ← secretStage st v
      let _s ← tokenStage st v
      let mtu ← modelStage args.model
      pure (dispatchStage st mtu sb out)
    match staged with
    | .error b =>
      { response := ⟨rid, b⟩, httpAttempted := false, usedTemp := false,
        usedClient := none, stateAfter := st }
    | .ok d =>
      { response := ⟨rid, d.body⟩, httpAttempted := d.httpAttempted,
        usedTemp := d.usedTemp, usedClient := d.usedClient, stateAfter := st }
  else
    { response := ⟨rid, .err (-32601) "Method not found".toList
        ("Tool ".toList ++ squote ++ nameText name ++ squote ++ " not found".toList)⟩,
      httpAttempted := false, usedTemp := false, usedClient := none,
      stateAfter := st }

/-- LLMMCPWrapper.handle_request (lines 95-294), dispatching on the method. -/
def handle_request (st : WrapperState) (req : Request) (sb : SinkBehavior)
    (out : HttpOutcome) : HandleOutcome :=
  match req with
  | .initReq rid =>
    { response := ⟨rid, .initResult⟩, httpAttempted := false, usedTemp := false,
      usedClient := none, stateAfter := st }
  | .toolsList rid =>
    { response := ⟨rid, .toolsListResult⟩, httpAttempted := false,
      usedTemp := false, usedClient := none, stateAfter := st }
  | .toolsCall rid name args => handleToolsCall st rid name args sb out
  | .resourcesList rid =>
    { response := ⟨rid, .resourcesListResult⟩, httpAttempted := false,
      usedTemp := false, usedClient := none, stateAfter := st }
  | .resourcesTemplatesList rid =>
    { response := ⟨rid, .templatesListResult⟩, httpAttempted := false,
      usedTemp := false, usedClient := none, stateAfter := st }
  | .unknown rid m =>
    { response := ⟨rid, .err (-32601) "Method not found".toList
        ("Method ".toList ++ squote ++ m ++ squote ++ " not found".toList)⟩,
      httpAttempted := false, usedTemp := false, usedClient := none,
      stateAfter := st }

/-- One stdin line of the protocol loop: empty (EOF, breaks the loop), not
    valid JSON, or a parsed request (bundled with the per-call oracles of the
    external collaborators). -/
inductive InputLine where
  | emptyLine
  | malformed
  | parsed (req : Request) (sb : SinkBehavior) (out : HttpOutcome)

/-- The -32700 reply the loop writes for a line that is not valid JSON
    (lines 342-348): message "Parse error", data "Invalid JSON", id null. -/
def parseErrorResponse : Response :=
  ⟨none, .err (-32700) "Parse error".toList "Invalid JSON".toList⟩

/-- The request loop of LLMMCPWrapper.run (lines 325-358): read a line, stop
    on EOF/empty, answer a malformed line with the parse error and continue,
    otherwise handle the parsed request; one response per line. -/
def runLoop (st : WrapperState) : List InputLine → List Response
  | [] => []
  | .emptyLine :: _ => []
  | .malformed :: rest => parseErrorResponse :: runLoop st rest
  | .parsed req sb out :: rest => (handle_request st req sb out).response :: runLoop st rest

deriving instance DecidableEq for Except

/-- A concrete token-count oracle (one token per character) for witnesses. -/
def tokLen : List Char → Nat := fun s => s.length

/-- A well-formed credential: "sk-" plus 29 further characters (length 32). -/
def validKey : List Char := "sk-00000000000000000000000000000".toList

/-- A persistent client configuration used by concrete witnesses. -/
def cfg0 : ClientConfig :=
  { model := "prov/mod".toList, apiKey := validKey,
    baseUrl := "https://openrouter.ai/api/v1".toList,
    enableLogging := true, enableRateLimiting := true, enableAuditLog := true,
    skipOutboundKeyChecks := true }

/-- A wrapper state with outbound key checks skipped and no env credential. -/
def st0 : WrapperState :=
  { client := cfg0, maxUserPromptTokens := 100, maxTokens := none,
    skipOutboundKeyChecks := true, openrouterApiKey := none, envBaseUrl := none,
    enableLogging := true, enableRateLimiting := true, enableAuditLog := true,
    tools := ["llm_call".toList], tok := tokLen }

/-- A wrapper state with outbound key checks active and an env credential. -/
def stKeyed : WrapperState :=
  { st0 with skipOutboundKeyChecks := false,
             openrouterApiKey := some "topsecret".toList }

/-- A wrapper state whose stored client credential is malformed, so that the
    one-shot re-validation on a model override fails. -/
def stBadKey : WrapperState :=
  { st0 with client := { cfg0 with apiKey := "bad".toList } }

/-- Sinks present and healthy. -/
def sbOk : SinkBehavior :=
  { auditPresent := true, trackerPresent := true, promptLogFails := false,
    responseLogFails := false, usageTrackFails := false }

/-- Sinks present; the audit prompt log raises. -/
def sbPromptFail : SinkBehavior :=
  { sbOk with promptLogFails := true }

/-- Sinks present; only the usage tracker raises. -/
def sbTrackFail : SinkBehavior :=
  { sbOk with usageTrackFails := true }

/-- tools/call arguments with a prompt only. -/
def argsP (p : JVal) : ToolCallArgs := ⟨some p, none⟩

/-- tools/call arguments with a prompt and a model override. -/
def argsPM (p m : JVal) : ToolCallArgs := ⟨some p, some m⟩

/-- An adversarial, format-valid credential ("sk-", 29 filler characters, then
    an opening parenthesis): its final character lets a credential occurrence
    straddle a replacement boundary. -/
def keyParen : List Char := "sk-aaaaaaaaaaaaaaaaaaaaaaaaaaaaa(".toList

/-- A response text on which redaction of `keyParen` leaves the credential in
    the output: 32 characters matching the start of the key, then the key. -/
def textParen : List Char := "sk-aaaaaaaaaaaaaaaaaaaaaaaaaaaaa".toList ++ keyParen

theorem infix_ne_nil {k s : List Char} (hk : k ≠ []) (h : k <:+: s) : s ≠ [] := by
  rintro rfl
  have hl := h.length_le
  simp at hl
  exact hk hl

theorem err_msg_ne {m₁ m₂ : List Char} (h : m₁ ≠ m₂) (c₁ c₂ : Int) (d₁ d₂ : List Char) :
    RBody.err c₁ m₁ d₁ ≠ .err c₂ m₂ d₂ := by
  intro he
  injection he with h1 h2 h3
  exact h h2

theorem err_code_ne {c₁ c₂ : Int} (h : c₁ ≠ c₂) (m₁ m₂ d₁ d₂ : List Char) :
    RBody.err c₁ m₁ d₁ ≠ .err c₂ m₂ d₂ := by
  intro he
  injection he with h1 h2 h3
  exact h h1

theorem err_data_ne {d₁ d₂ : List Char} (h : d₁ ≠ d₂) (c₁ c₂ : Int) (m₁ m₂ : List Char) :
    RBody.err c₁ m₁ d₁ ≠ .err c₂ m₂ d₂ := by
  intro he
  injection he with h1 h2 h3
  exact h h3

theorem content_ne_err (t : List Char) (c : Int) (m d : List Char) :
    RBody.content t ≠ .err c m d := by
  intro he
  exact RBody.noConfusion he

/-- For a registered tool and a truthy prompt, handleToolsCall is the staged
    pipeline starting at the outbound secret check. -/
theorem handleToolsCall_eq (st : WrapperState) (rid : RId) (n : List Char)
    (args : ToolCallArgs) (sb : SinkBehavior) (out : HttpOutcome) (v : JVal)
    (hreg : n ∈ st.tools) (hprompt : args.prompt = some v)
    (htruthy : truthy v = true) :
    handleToolsCall st rid (some n) args sb out =
      match (do
        let v' ← secretStage st v
        let _s ← tokenStage st v'
        let mtu ← modelStage args.model
        pure (dispatchStage st mtu sb out) : Except RBody DispatchResult) with
      | .error b =>
        { response := ⟨rid, b⟩, httpAttempted := false, usedTemp := false,
          usedClient := none, stateAfter := st }
      | .ok d =>
        { response := ⟨rid, d.body⟩, httpAttempted := d.httpAttempted,
          usedTemp := d.usedTemp, usedClient := d.usedClient, stateAfter := st } := by
  unfold handleToolsCall
  simp only [hprompt, presenceStage, htruthy, if_true, hreg, decide_True, bind,
    Except.bind]

/-- On a string prompt the secret check either rejects with the security body
    or passes the value through unchanged. -/
theorem secretStage_jstr (st : WrapperState) (s : List Char) :
    secretStage st (.jstr s) = .error securityBody ∨
    secretStage st (.jstr s) = .ok (.jstr s) := by
  cases hsk : st.skipOutboundKeyChecks with
  | true => right; simp [secretStage, hsk]
  | false =>
    cases hok : st.openrouterApiKey with
    | none => right; simp [secretStage, hsk, hok]
    | some k =>
      by_cases he : k.isEmpty
      · right; simp [secretStage, hsk, hok, he]
      · by_cases hin : k <:+: s
        · left; simp [secretStage, hsk, hok, he, hin]
        · right; simp [secretStage, hsk, hok, he, hin]

/-- A failing model stage yields either one of the three -32602 model errors
    or the outer AttributeError conversion. -/
theorem modelStage_error_shape {m? : Option JVal} {b : RBody}
    (h : modelStage m? = .error b) :
    (∃ e, b = modelErrBody e) ∨ ∃ v, b = outerInternalBody (stripAttrErrText v) := by
  rcases m? with _ | v
  · simp [modelStage] at h
  · rcases v with _ | b' | n' | m
    · simp [modelStage] at h
      exact .inr ⟨.jnull, h.symm⟩
    · simp [modelStage] at h
      exact .inr ⟨.jbool b', h.symm⟩
    · simp [modelStage] at h
      exact .inr ⟨.jnum n', h.symm⟩
    · rcases hv : validate_model m with e | m'
      · simp [modelStage, hv] at h
        exact .inl ⟨e, h.symm⟩
      · simp [modelStage, hv] at h

/-- Each modelErrBody is a -32602 "Invalid model specification" error. -/
theorem modelErrBody_msg (e : ModelErr) :
    ∃ d, modelErrBody e = .err (-32602) "Invalid model specification".toList d := by
  cases e <;> exact ⟨_, rfl⟩

/-- The dispatch step replies either with the success content envelope or with
    a -32000 error carrying the fixed internal data text. -/
theorem dispatch_body_shape (st : WrapperState) (mtu : Option (List Char))
    (sb : SinkBehavior) (out : HttpOutcome) :
    (∃ t, (dispatchStage st mtu sb out).body = .content t) ∨
    ∃ m, (dispatchStage st mtu sb out).body = .err (-32000) m internalDataText := by
  rcases hc : clientForDispatch st mtu with e | c
  · right
    exact ⟨classifyError e, by simp [dispatchStage, hc]⟩
  · rcases hg : generate_response c sb out with e | t
    · right
      exact ⟨classifyError e, by simp [dispatchStage, hc, hg]⟩
    · left
      exact ⟨t, by simp [dispatchStage, hc, hg]⟩

/-- C2: with outbound key checks enabled and a non-empty configured
    credential, any tools/call whose string prompt contains the credential as
    a substring is answered with the -32602 "Security violation" error, and
    the outbound HTTP request is never attempted. -/
theorem secret_violation_rejected_before_gateway
    (st : WrapperState) (rid : RId) (n : List Char) (args : ToolCallArgs)
    (sb : SinkBehavior) (out : HttpOutcome) (s k : List Char)
    (hreg : n ∈ st.tools)
    (hskip : st.skipOutboundKeyChecks = false)
    (hkey : st.openrouterApiKey = some k)
    (hk : k ≠ [])
    (hprompt : args.prompt = some (.jstr s))
    (hin : k <:+: s) :
    (handle_request st (.toolsCall rid (some n) args) sb out).response = ⟨rid, securityBody⟩ ∧
    (handle_request st (.toolsCall rid (some n) args) sb out).httpAttempted = false := by
  have hs : s ≠ [] := infix_ne_nil hk hin
  unfold handle_request handleToolsCall
  simp only [hprompt, hskip, hkey, presenceStage, secretStage, truthy, hreg, decide_True]
  simp [hs, hk, hin, Except.bind, bind, List.isEmpty_iff]

/-- Witness for C2 at a concrete state and request. -/
theorem secret_violation_rejected_before_gateway_witness :
    ("topsecret".toList <:+: "use topsecret now".toList) ∧
    (handle_request stKeyed
        (.toolsCall (some 1) (some "llm_call".toList)
          (argsP (.jstr "use topsecret now".toList))) sbOk
        (.success "ok".toList)).response = ⟨some 1, securityBody⟩ ∧
    (handle_request stKeyed
        (.toolsCall (some 1) (some "llm_call".toList)
          (argsP (.jstr "use topsecret now".toList))) sbOk
        (.success "ok".toList)).httpAttempted = false := by
  refine ⟨by decide, ?_⟩
  exact secret_violation_rejected_before_gateway stKeyed (some 1) "llm_call".toList
    (argsP (.jstr "use topsecret now".toList)) sbOk (.success "ok".toList)
    "use topsecret now".toList "topsecret".toList (by decide) rfl rfl (by decide)
    rfl (by decide)

/-- C8: a stdin line that is not valid JSON is answered with exactly one
    -32700 "Parse error" response with id null, and the loop then serves the
    remaining lines exactly as it would have without the bad line. -/
theorem parse_error_single_response_then_continue (st : WrapperState)
    (rest : List InputLine) :
    runLoop st (.malformed :: rest) = parseErrorResponse :: runLoop st rest ∧
    parseErrorResponse =
      ⟨none, .err (-32700) "Parse error".toList "Invalid JSON".toList⟩ :=
  ⟨rfl, rfl⟩

/-- Witness for C8 at a concrete state and input tail. -/
theorem parse_error_single_response_then_continue_witness :
    runLoop st0
        [.malformed, .parsed (.toolsList (some 2)) sbOk (.success "ok".toList)] =
      parseErrorResponse ::
        runLoop st0 [.parsed (.toolsList (some 2)) sbOk (.success "ok".toList)] :=
  (parse_error_single_response_then_continue st0
    [.parsed (.toolsList (some 2)) sbOk (.success "ok".toList)]).1

/-- C4: a prompt whose token count is at most the configured maximum is never
    rejected on budget grounds (the inclusive boundary count = max passes),
    while a count of max + 1 - when the request otherwise reaches the budget
    check - is rejected with -32602 and an error payload quoting the maximum. -/
theorem token_budget_inclusive_boundary
    (st : WrapperState) (rid : RId) (n : List Char) (args : ToolCallArgs)
    (sb : SinkBehavior) (out : HttpOutcome) (s : List Char)
    (hreg : n ∈ st.tools)
    (hprompt : args.prompt = some (.jstr s))
    (hs : s ≠ []) :
    (st.tok s ≤ st.maxUserPromptTokens →
      (handle_request st (.toolsCall rid (some n) args) sb out).response.body ≠
        budgetBody st.maxUserPromptTokens) ∧
    (secretStage st (.jstr s) = .ok (.jstr s) →
      st.tok s = st.maxUserPromptTokens + 1 →
      (handle_request st (.toolsCall rid (some n) args) sb out).response =
        ⟨rid, budgetBody st.maxUserPromptTokens⟩) := by
  have htr : truthy (.jstr s) = true := by simp [truthy, hs]
  have heq := handleToolsCall_eq st rid n args sb out (.jstr s) hreg hprompt htr
  have hhr : handle_request st (.toolsCall rid (some n) args) sb out =
      handleToolsCall st rid (some n) args sb out := rfl
  constructor
  · intro htok
    rw [hhr, heq]
    rcases secretStage_jstr st s with hsec | hsec
    · simp only [hsec, Except.bind, bind]
      exact err_msg_ne (by decide) _ _ _ _
    · have htk : tokenStage st (.jstr s) = .ok s := by
        simp only [tokenStage]
        rw [if_neg (by omega)]
      rcases hms : modelStage args.model with b | mtu
      · rcases modelStage_error_shape hms with ⟨e, rfl⟩ | ⟨v, rfl⟩
        · obtain ⟨d, hd⟩ := modelErrBody_msg e
          simp only [hsec, htk, hms, hd, Except.bind, bind]
          exact err_msg_ne (by decide) _ _ _ _
        · simp only [hsec, htk, hms, Except.bind, bind]
          exact err_code_ne (by decide) _ _ _ _
      · rcases dispatch_body_shape st mtu sb out with ⟨t, hb⟩ | ⟨m, hb⟩
        · simp only [hsec, htk, hms, Except.bind, bind, pure, Except.pure]
          rw [hb]
          exact content_ne_err _ _ _ _
        · simp only [hsec, htk, hms, Except.bind, bind, pure, Except.pure]
          rw [hb]
          exact err_code_ne (by decide) _ _ _ _
  · intro hsec htok
    rw [hhr, heq]
    have htk : tokenStage st (.jstr s) = .error (budgetBody st.maxUserPromptTokens) := by
      simp only [tokenStage]
      rw [if_pos (by omega)]
    simp only [hsec, htk, Except.bind, bind]

/-- Witness for C4 at the boundary (count = max accepted, max + 1 rejected). -/
theorem token_budget_inclusive_boundary_witness :
    (st0.tok (List.replicate 100 'x') ≤ st0.maxUserPromptTokens ∧
      (handle_request st0
          (.toolsCall (some 1) (some "llm_call".toList)
            (argsP (.jstr (List.replicate 100 'x')))) sbOk
          (.success "ok".toList)).response.body ≠ budgetBody st0.maxUserPromptTokens) ∧
    (handle_request st0
        (.toolsCall (some 1) (some "llm_call".toList)
          (argsP (.jstr (List.replicate 101 'x')))) sbOk
        (.success "ok".toList)).response = ⟨some 1, budgetBody st0.maxUserPromptTokens⟩ := by
  constructor
  · refine ⟨by decide, ?_⟩
    exact (token_budget_inclusive_boundary st0 (some 1) "llm_call".toList
      (argsP (.jstr (List.replicate 100 'x'))) sbOk (.success "ok".toList)
      (List.replicate 100 'x') (by decide) rfl (by decide)).1 (by decide)
  · exact (token_budget_inclusive_boundary st0 (some 1) "llm_call".toList
      (argsP (.jstr (List.replicate 101 'x'))) sbOk (.success "ok".toList)
      (List.replicate 101 'x') (by decide) rfl (by decide)).2 rfl (by decide)

theorem mgrLogPrompt_ok {sb : SinkBehavior}
    (h : sb.auditPresent = false ∨ sb.promptLogFails = false) :
    mgrLogPrompt sb = .ok () := by
  rcases h with h | h <;> simp [mgrLogPrompt, h]

theorem mgrLogResponse_ok {sb : SinkBehavior}
    (h : sb.auditPresent = false ∨ sb.responseLogFails = false) :
    mgrLogResponse sb = .ok () := by
  rcases h with h | h <;> simp [mgrLogResponse, h]

/-- track_usage swallows every storage failure: it never raises. -/
theorem mgrTrackUsage_ok (sb : SinkBehavior) : mgrTrackUsage sb = .ok () := by
  by_cases h : sb.trackerPresent <;> by_cases hf : sb.usageTrackFails <;>
    simp [mgrTrackUsage, rawTrackUsage, h, hf]

/-- When the audit operations do not raise, a 2xx outcome makes
    generate_response return the redacted content, for any tracker behavior. -/
theorem generate_response_success (cfg : ClientConfig) (sb : SinkBehavior)
    (content : List Char)
    (hA : sb.auditPresent = false ∨ sb.promptLogFails = false)
    (hB : sb.auditPresent = false ∨ sb.responseLogFails = false) :
    generate_response cfg sb (.success content) =
      .ok (redact_api_key cfg.skipOutboundKeyChecks cfg.apiKey content) := by
  simp [generate_response, tryBlockRun, mgrLogPrompt_ok hA, mgrLogResponse_ok hB,
    mgrTrackUsage_ok, sendLlmRequest]

/-- A 429 outcome makes generate_response fail with the rate-limit
    RuntimeError carrying the Retry-After value. -/
theorem generate_response_429 (cfg : ClientConfig) (sb : SinkBehavior)
    (reason : List Char) (ra : Option (List Char))
    (hA : sb.auditPresent = false ∨ sb.promptLogFails = false) :
    generate_response cfg sb (.httpError 429 reason ra) =
      .error (.runtimeError (rateLimitMsg ra)) := by
  simp [generate_response, tryBlockRun, mgrLogPrompt_ok hA, sendLlmRequest, convertExc]

/-- The rate-limit message contains "Retry after {v} seconds". -/
theorem retry_after_infixed (v : List Char) :
    ("Retry after ".toList ++ v ++ " seconds".toList) <:+: rateLimitMsg (some v) := by
  refine ⟨"API rate limit exceeded: ".toList, [], ?_⟩
  have hsplit : "API rate limit exceeded: ".toList ++ "Retry after ".toList =
      "API rate limit exceeded: Retry after ".toList := by decide
  simp only [rateLimitMsg, Option.getD, List.append_nil, ← List.append_assoc, hsplit]

/-- The classifier keeps the text of a rate-limit RuntimeError. -/
theorem classify_rate_limit (ra : Option (List Char)) :
    classifyError (.runtimeError (rateLimitMsg ra)) = rateLimitMsg ra := by
  have hpre : "API rate limit exceeded".toList <:+: rateLimitMsg ra := by
    refine List.IsPrefix.isInfix ?_
    have h1 : "API rate limit exceeded".toList <+:
        "API rate limit exceeded: Retry after ".toList := by decide
    exact h1.trans (List.prefix_append _ _)
  simp only [classifyError]
  rw [if_pos (Or.inl hpre)]

/-- handle_request never mutates the wrapper state; in particular no one-shot
    client is ever retained across invocations. -/
theorem handle_request_state_const (st : WrapperState) (req : Request)
    (sb : SinkBehavior) (out : HttpOutcome) :
    (handle_request st req sb out).stateAfter = st := by
  rcases req with rid | rid | ⟨rid, name, args⟩ | rid | rid | ⟨rid, m⟩
  · rfl
  · rfl
  · show (handleToolsCall st rid name args sb out).stateAfter = st
    unfold handleToolsCall
    dsimp only
    split
    · split <;> rfl
    · rfl
  · rfl
  · rfl
  · rfl

/-- Successful construction of an LLMClient from a resolved, well-formed key. -/
theorem mkLLMClient_ok_spec (model : List Char) (aurl : Option (List Char))
    (p e eb : Option (List Char)) (l r a sk : Bool) (k : List Char)
    (hk : resolvedKey p e = some k) (hke : k.isEmpty = false)
    (hfmt : skPre <+: k ∧ 32 ≤ k.length) :
    mkLLMClient model aurl p e eb l r a sk =
      .ok { model := model, apiKey := k, baseUrl := get_api_base_url aurl eb,
            enableLogging := l, enableRateLimiting := r, enableAuditLog := a,
            skipOutboundKeyChecks := sk } := by
  unfold mkLLMClient
  rw [hk]
  dsimp only
  rw [if_neg (by simp [hke]), if_neg (not_not_intro hfmt)]

/-- Failed construction of an LLMClient from a resolved but malformed key. -/
theorem mkLLMClient_badformat (model : List Char) (aurl : Option (List Char))
    (p e eb : Option (List Char)) (l r a sk : Bool) (k : List Char)
    (hk : resolvedKey p e = some k) (hke : k.isEmpty = false)
    (hfmt : ¬ (skPre <+: k ∧ 32 ≤ k.length)) :
    mkLLMClient model aurl p e eb l r a sk = .error keyBadFormatText := by
  unfold mkLLMClient
  rw [hk]
  dsimp only
  rw [if_neg (by simp [hke]), if_pos hfmt]

/-- A successfully constructed one-shot client inherits the credential, base
    URL and toggles of the pipeline. -/
theorem mkTempClient_inherits (st : WrapperState) (m : List Char) (c : ClientConfig)
    (h : mkTempClient st m = .ok c)
    (hkey : st.client.apiKey ≠ [])
    (hurl : st.client.baseUrl ≠ []) :
    c.model = m ∧ c.apiKey = st.client.apiKey ∧ c.baseUrl = st.client.baseUrl ∧
    c.enableLogging = st.enableLogging ∧
    c.enableRateLimiting = st.enableRateLimiting ∧
    c.enableAuditLog = st.enableAuditLog ∧
    c.skipOutboundKeyChecks = st.skipOutboundKeyChecks := by
  have hkey' : st.client.apiKey.isEmpty = false := by
    simp [List.isEmpty_iff, hkey]
  have hres : resolvedKey (some st.client.apiKey) st.openrouterApiKey =
      some st.client.apiKey := by
    simp [resolvedKey, hkey']
  by_cases hfmt : skPre <+: st.client.apiKey ∧ 32 ≤ st.client.apiKey.length
  · have h2 : mkTempClient st m = .ok
        { model := m, apiKey := st.client.apiKey,
          baseUrl := get_api_base_url (some st.client.baseUrl) st.envBaseUrl,
          enableLogging := st.enableLogging,
          enableRateLimiting := st.enableRateLimiting,
          enableAuditLog := st.enableAuditLog,
          skipOutboundKeyChecks := st.skipOutboundKeyChecks } := by
      simp [mkTempClient, mkLLMClient_ok_spec _ _ _ _ _ _ _ _ _ _ hres hkey' hfmt]
    rw [h2] at h
    injection h with h'
    subst h'
    have hurl' : st.client.baseUrl.isEmpty = false := by
      simp [List.isEmpty_iff, hurl]
    simp [get_api_base_url, hurl']
  · have h2 : mkTempClient st m = .error (.valueError keyBadFormatText) := by
      simp [mkTempClient, mkLLMClient_badformat _ _ _ _ _ _ _ _ _ _ hres hkey' hfmt]
    rw [h2] at h
    exact Except.noConfusion h

/-- When every validation stage passes, handle_request is exactly the
    outcome of the dispatch step. -/
theorem handle_dispatch_eq (st : WrapperState) (rid : RId) (n : List Char)
    (args : ToolCallArgs) (sb : SinkBehavior) (out : HttpOutcome) (s : List Char)
    (mtu : Option (List Char))
    (hreg : n ∈ st.tools)
    (hprompt : args.prompt = some (.jstr s))
    (hs : s ≠ [])
    (hsec : secretStage st (.jstr s) = .ok (.jstr s))
    (htok : st.tok s ≤ st.maxUserPromptTokens)
    (hms : modelStage args.model = .ok mtu) :
    handle_request st (.toolsCall rid (some n) args) sb out =
      { response := ⟨rid, (dispatchStage st mtu sb out).body⟩,
        httpAttempted := (dispatchStage st mtu sb out).httpAttempted,
        usedTemp := (dispatchStage st mtu sb out).usedTemp,
        usedClient := (dispatchStage st mtu sb out).usedClient,
        stateAfter := st } := by
  have htr : truthy (.jstr s) = true := by simp [truthy, hs]
  have heq := handleToolsCall_eq st rid n args sb out (.jstr s) hreg hprompt htr
  have hhr : handle_request st (.toolsCall rid (some n) args) sb out =
      handleToolsCall st rid (some n) args sb out := rfl
  have htk : tokenStage st (.jstr s) = .ok s := by
    simp only [tokenStage]
    rw [if_neg (by omega)]
  rw [hhr, heq]
  simp only [hsec, htk, hms, Except.bind, bind, pure, Except.pure]

/-- C7: a 429 response makes the gateway fail with the rate-limit error
    carrying the Retry-After header value (60 when the header is absent), and
    the pipeline surfaces a -32000 error whose message contains
    "Retry after N seconds" for the extracted value N. -/
theorem rate_limited_429_surfaced :
    (∀ cfg sb reason ra, (sb.auditPresent = false ∨ sb.promptLogFails = false) →
      generate_response cfg sb (.httpError 429 reason ra) =
        .error (.runtimeError (rateLimitMsg ra))) ∧
    rateLimitMsg none = "API rate limit exceeded: Retry after 60 seconds".toList ∧
    (∀ st rid n args sb s mtu reason v c, n ∈ st.tools →
      args.prompt = some (.jstr s) → s ≠ [] →
      secretStage st (.jstr s) = .ok (.jstr s) →
      st.tok s ≤ st.maxUserPromptTokens →
      modelStage args.model = .ok mtu →
      (sb.auditPresent = false ∨ sb.promptLogFails = false) →
      clientForDispatch st mtu = .ok c →
      (handle_request st (.toolsCall rid (some n) args) sb
          (.httpError 429 reason (some v))).response =
        ⟨rid, .err (-32000) (rateLimitMsg (some v)) internalDataText⟩ ∧
      ("Retry after ".toList ++ v ++ " seconds".toList) <:+: rateLimitMsg (some v)) := by
  refine ⟨fun cfg sb reason ra hA => generate_response_429 cfg sb reason ra hA,
    by decide, ?_⟩
  intro st rid n args sb s mtu reason v c hreg hprompt hs hsec htok hms hA hcd
  refine ⟨?_, retry_after_infixed v⟩
  rw [handle_dispatch_eq st rid n args sb (.httpError 429 reason (some v)) s mtu
    hreg hprompt hs hsec htok hms]
  simp [dispatchStage, hcd, generate_response_429 c sb reason (some v) hA,
    classify_rate_limit]

/-- Witness for C7: Retry-After 30 yields a -32000 whose message contains
    "Retry after 30 seconds". -/
theorem rate_limited_429_surfaced_witness :
    (handle_request st0
        (.toolsCall (some 1) (some "llm_call".toList) (argsP (.jstr "hi".toList)))
        sbOk (.httpError 429 "Too Many Requests".toList (some "30".toList))).response =
      ⟨some 1, .err (-32000) (rateLimitMsg (some "30".toList)) internalDataText⟩ ∧
    "Retry after 30 seconds".toList <:+: rateLimitMsg (some "30".toList) := by
  have h := rate_limited_429_surfaced.2.2 st0 (some 1) "llm_call".toList
    (argsP (.jstr "hi".toList)) sbOk "hi".toList none "Too Many Requests".toList
    "30".toList st0.client (by decide) rfl (by decide) rfl (by decide) rfl
    (Or.inr rfl) rfl
  refine ⟨h.1, ?_⟩
  have he : "Retry after 30 seconds".toList =
      "Retry after ".toList ++ "30".toList ++ " seconds".toList := by decide
  rw [he]
  exact h.2

/-- C1 counterexample: with the gateway succeeding (HTTP 2xx, content "ok")
    but log_prompt of the audit sink raising, the caller receives a -32000
    internal error - the sink failure is NOT swallowed - and the outbound call
    is not even attempted, refuting the claim that a gateway-level success
    returns its normal envelope under any sink failure. -/
theorem audit_sink_failure_propagates_counterexample :
    (handle_request st0
        (.toolsCall (some 1) (some "llm_call".toList) (argsP (.jstr "hi".toList)))
        sbPromptFail (.success "ok".toList)).response.body =
      .err (-32000) ("Internal error: ".toList ++ promptLogFailText) internalDataText ∧
    (handle_request st0
        (.toolsCall (some 1) (some "llm_call".toList) (argsP (.jstr "hi".toList)))
        sbPromptFail (.success "ok".toList)).httpAttempted = false := by
  decide

/-- C1 amended: recordUsage (track_usage) failures are caught inside the sink
    boundary and never propagate - a gateway-level success returns its normal
    envelope for ANY tracker behavior - but recordPrompt/recordResponse
    (audit) failures are not caught and fail the completion, so the success
    guarantee requires the audit operations not to raise. -/
theorem usage_sink_failures_never_propagate (st : WrapperState) (rid : RId)
    (n : List Char) (args : ToolCallArgs) (sb : SinkBehavior)
    (content s : List Char) (mtu : Option (List Char)) (c : ClientConfig)
    (hreg : n ∈ st.tools)
    (hprompt : args.prompt = some (.jstr s))
    (hs : s ≠ [])
    (hsec : secretStage st (.jstr s) = .ok (.jstr s))
    (htok : st.tok s ≤ st.maxUserPromptTokens)
    (hms : modelStage args.model = .ok mtu)
    (hcd : clientForDispatch st mtu = .ok c)
    (hA : sb.auditPresent = false ∨ sb.promptLogFails = false)
    (hB : sb.auditPresent = false ∨ sb.responseLogFails = false) :
    mgrTrackUsage sb = .ok () ∧
    (handle_request st (.toolsCall rid (some n) args) sb (.success content)).response =
      ⟨rid, .content (redact_api_key c.skipOutboundKeyChecks c.apiKey content)⟩ := by
  refine ⟨mgrTrackUsage_ok sb, ?_⟩
  rw [handle_dispatch_eq st rid n args sb (.success content) s mtu
    hreg hprompt hs hsec htok hms]
  simp [dispatchStage, hcd, generate_response_success c sb content hA hB]

/-- Witness for amended C1: the usage tracker raises, yet the completion
    succeeds with its normal envelope. -/
theorem usage_sink_failures_never_propagate_witness :
    sbTrackFail.usageTrackFails = true ∧
    mgrTrackUsage sbTrackFail = .ok () ∧
    (handle_request st0
        (.toolsCall (some 1) (some "llm_call".toList) (argsP (.jstr "hi".toList)))
        sbTrackFail (.success "ok".toList)).response =
      ⟨some 1, .content "ok".toList⟩ := by
  have h := usage_sink_failures_never_propagate st0 (some 1) "llm_call".toList
    (argsP (.jstr "hi".toList)) sbTrackFail "ok".toList "hi".toList none st0.client
    (by decide) rfl (by decide) rfl (by decide) rfl rfl (Or.inr rfl) (Or.inr rfl)
  exact ⟨rfl, h.1, by rw [h.2]; decide⟩

/-- C3 counterexample: a valid model override exactly equal to the pipeline
    default model still constructs and uses a one-shot client, refuting the
    claim that the persistent gateway is used when the override does not
    differ from the default. -/
theorem override_equal_to_default_counterexample :
    st0.client.model = "prov/mod".toList ∧
    (handle_request st0
        (.toolsCall (some 1) (some "llm_call".toList)
          (argsPM (.jstr "hi".toList) (.jstr "prov/mod".toList)))
        sbOk (.success "ok".toList)).usedTemp = true := by
  exact ⟨rfl, by decide⟩

/-- C3 amended: a one-shot client is constructed and used whenever a VALID
    model override is supplied (regardless of whether it equals the default
    model); it inherits the credential, base URL and all toggles from the
    pipeline; without an override the persistent client is used; and the
    wrapper state is never changed, so a one-shot client is never retained. -/
theorem one_shot_client_per_valid_override (st : WrapperState) (rid : RId)
    (n : List Char) (args : ToolCallArgs) (sb : SinkBehavior) (out : HttpOutcome)
    (s : List Char)
    (hreg : n ∈ st.tools)
    (hprompt : args.prompt = some (.jstr s))
    (hs : s ≠ [])
    (hsec : secretStage st (.jstr s) = .ok (.jstr s))
    (htok : st.tok s ≤ st.maxUserPromptTokens) :
    (args.model = none →
      (handle_request st (.toolsCall rid (some n) args) sb out).usedTemp = false ∧
      (handle_request st (.toolsCall rid (some n) args) sb out).usedClient =
        some st.client) ∧
    (∀ m m' c, args.model = some (.jstr m) → validate_model m = .ok m' →
      mkTempClient st m' = .ok c →
      st.client.apiKey ≠ [] → st.client.baseUrl ≠ [] →
      (handle_request st (.toolsCall rid (some n) args) sb out).usedTemp = true ∧
      (handle_request st (.toolsCall rid (some n) args) sb out).usedClient = some c ∧
      c.model = m' ∧ c.apiKey = st.client.apiKey ∧ c.baseUrl = st.client.baseUrl ∧
      c.enableLogging = st.enableLogging ∧
      c.enableRateLimiting = st.enableRateLimiting ∧
      c.enableAuditLog = st.enableAuditLog ∧
      c.skipOutboundKeyChecks = st.skipOutboundKeyChecks) ∧
    (handle_request st (.toolsCall rid (some n) args) sb out).stateAfter = st := by
  refine ⟨?_, ?_, handle_request_state_const st _ sb out⟩
  · intro hmodel
    have hms : modelStage args.model = .ok none := by simp [hmodel, modelStage]
    rw [handle_dispatch_eq st rid n args sb out s none hreg hprompt hs hsec htok hms]
    rcases hg : generate_response st.client sb out with e | t <;>
      simp [dispatchStage, clientForDispatch, hg]
  · intro m m' c hmodel hval htemp hkey hurl
    have hms : modelStage args.model = .ok (some m') := by
      simp [hmodel, modelStage, hval]
    rw [handle_dispatch_eq st rid n args sb out s (some m') hreg hprompt hs hsec
      htok hms]
    have hcd : clientForDispatch st (some m') = .ok c := htemp
    refine ⟨?_, ?_, mkTempClient_inherits st m' c htemp hkey hurl⟩
    · rcases hg : generate_response c sb out with e | t <;>
        simp [dispatchStage, hcd, hg]
    · rcases hg : generate_response c sb out with e | t <;>
        simp [dispatchStage, hcd, hg]

/-- Witness for amended C3 at a concrete override differing from nothing in
    particular ("other/model"), showing the one-shot client and inheritance. -/
theorem one_shot_client_per_valid_override_witness :
    (handle_request st0
        (.toolsCall (some 1) (some "llm_call".toList)
          (argsPM (.jstr "hi".toList) (.jstr "other/model".toList)))
        sbOk (.success "ok".toList)).usedTemp = true ∧
    (handle_request st0
        (.toolsCall (some 1) (some "llm_call".toList)
          (argsPM (.jstr "hi".toList) (.jstr "other/model".toList)))
        sbOk (.success "ok".toList)).usedClient =
      some { cfg0 with model := "other/model".toList } ∧
    (handle_request st0
        (.toolsCall (some 1) (some "llm_call".toList)
          (argsP (.jstr "hi".toList)))
        sbOk (.success "ok".toList)).usedTemp = false := by
  have h := (one_shot_client_per_valid_override st0 (some 1) "llm_call".toList
    (argsPM (.jstr "hi".toList) (.jstr "other/model".toList)) sbOk
    (.success "ok".toList) "hi".toList (by decide) rfl (by decide) rfl
    (by decide)).2.1 "other/model".toList "other/model".toList
    { cfg0 with model := "other/model".toList } rfl (by decide) (by decide)
    (by decide) (by decide)
  have h2 := (one_shot_client_per_valid_override st0 (some 1) "llm_call".toList
    (argsP (.jstr "hi".toList)) sbOk (.success "ok".toList) "hi".toList
    (by decide) rfl (by decide) rfl (by decide)).1 rfl
  exact ⟨h.1, h.2.1, h2.1⟩

/-- C9: LLMClient construction fails with ValueError exactly when the resolved
    credential is absent/empty, lacks the "sk-" start, or is shorter than 32
    characters; and because a model override re-constructs a client, a failing
    re-validation surfaces as a -32000 internal error for that request. -/
theorem credential_validation_exact_and_override_recheck :
    (∀ model aurl p e eb l r a sk,
      (∃ c, mkLLMClient model aurl p e eb l r a sk = .ok c) ↔
      (∃ k, resolvedKey p e = some k ∧ k ≠ [] ∧ skPre <+: k ∧ 32 ≤ k.length)) ∧
    (∀ st rid n args sb out s m m' msg, n ∈ st.tools →
      args.prompt = some (.jstr s) → s ≠ [] →
      secretStage st (.jstr s) = .ok (.jstr s) →
      st.tok s ≤ st.maxUserPromptTokens →
      args.model = some (.jstr m) → validate_model m = .ok m' →
      mkTempClient st m' = .error (.valueError msg) →
      (handle_request st (.toolsCall rid (some n) args) sb out).response =
        ⟨rid, .err (-32000) ("Internal error: ".toList ++ msg) internalDataText⟩ ∧
      (handle_request st (.toolsCall rid (some n) args) sb out).httpAttempted =
        false) := by
  constructor
  · intro model aurl p e eb l r a sk
    constructor
    · rintro ⟨c, hc⟩
      rcases hres : resolvedKey p e with _ | k
      · rw [show mkLLMClient model aurl p e eb l r a sk = .error keyNotSetText by
          unfold mkLLMClient; rw [hres]] at hc
        exact Except.noConfusion hc
      · by_cases hke : k.isEmpty
        · rw [show mkLLMClient model aurl p e eb l r a sk = .error keyNotSetText by
            unfold mkLLMClient; rw [hres]; dsimp only; rw [if_pos hke]] at hc
          exact Except.noConfusion hc
        · have hke' : k.isEmpty = false := by simpa using hke
          by_cases hfmt : skPre <+: k ∧ 32 ≤ k.length
          · exact ⟨k, rfl, by simpa [List.isEmpty_iff] using hke,
              hfmt.1, hfmt.2⟩
          · rw [mkLLMClient_badformat model aurl p e eb l r a sk k hres hke' hfmt]
              at hc
            exact Except.noConfusion hc
    · rintro ⟨k, hres, hne, h1, h2⟩
      have hke' : k.isEmpty = false := by simp [List.isEmpty_iff, hne]
      exact ⟨_, mkLLMClient_ok_spec model aurl p e eb l r a sk k hres hke' ⟨h1, h2⟩⟩
  · intro st rid n args sb out s m m' msg hreg hprompt hs hsec htok hmodel hval hfail
    have hms : modelStage args.model = .ok (some m') := by
      simp [hmodel, modelStage, hval]
    rw [handle_dispatch_eq st rid n args sb out s (some m') hreg hprompt hs hsec
      htok hms]
    have hcd : clientForDispatch st (some m') = .error (.valueError msg) := hfail
    simp [dispatchStage, hcd, classifyError, strOfExc]

/-- Witness for C9: a well-formed key constructs; the stored malformed key of
    stBadKey makes the override re-check fail and surface as -32000. -/
theorem credential_validation_exact_and_override_recheck_witness :
    (∃ c, mkLLMClient "m".toList none (some validKey) none none true true true false =
      .ok c) ∧
    (handle_request stBadKey
        (.toolsCall (some 1) (some "llm_call".toList)
          (argsPM (.jstr "hi".toList) (.jstr "a/b".toList)))
        sbOk (.success "ok".toList)).response =
      ⟨some 1, .err (-32000) ("Internal error: ".toList ++ keyBadFormatText)
        internalDataText⟩ := by
  constructor
  · exact (credential_validation_exact_and_override_recheck.1 "m".toList none
      (some validKey) none none true true true false).mpr
      ⟨validKey, rfl, by decide, by decide, by decide⟩
  · exact (credential_validation_exact_and_override_recheck.2 stBadKey (some 1)
      "llm_call".toList (argsPM (.jstr "hi".toList) (.jstr "a/b".toList)) sbOk
      (.success "ok".toList) "hi".toList "a/b".toList "a/b".toList
      keyBadFormatText (by decide) rfl (by decide) rfl (by decide) rfl
      (by decide) (by decide)).1

/-- A failing secret check yields the security rejection (string prompt with a
    hit) or the TypeError conversion (non-string prompt). -/
theorem secretStage_error_shape {st : WrapperState} {v : JVal} {b : RBody}
    (h : secretStage st v = .error b) :
    b = securityBody ∨ b = outerInternalBody (iterTypeErrText v) := by
  cases hsk : st.skipOutboundKeyChecks with
  | true => simp [secretStage, hsk] at h
  | false =>
    cases hok : st.openrouterApiKey with
    | none => simp [secretStage, hsk, hok] at h
    | some k =>
      by_cases hke : k.isEmpty
      · simp [secretStage, hsk, hok, hke] at h
      · rcases v with _ | bb | nn | s
        · simp [secretStage, hsk, hok, hke] at h
          exact .inr h.symm
        · simp [secretStage, hsk, hok, hke] at h
          exact .inr h.symm
        · simp [secretStage, hsk, hok, hke] at h
          exact .inr h.symm
        · by_cases hin : k <:+: s
          · simp [secretStage, hsk, hok, hke, hin] at h
            exact .inl h.symm
          · simp [secretStage, hsk, hok, hke, hin] at h

/-- A passed secret check returns the prompt value unchanged. -/
theorem secretStage_ok_value {st : WrapperState} {v w : JVal}
    (h : secretStage st v = .ok w) : w = v := by
  cases hsk : st.skipOutboundKeyChecks with
  | true => simp [secretStage, hsk] at h; exact h.symm
  | false =>
    cases hok : st.openrouterApiKey with
    | none => simp [secretStage, hsk, hok] at h; exact h.symm
    | some k =>
      by_cases hke : k.isEmpty
      · simp [secretStage, hsk, hok, hke] at h; exact h.symm
      · rcases v with _ | bb | nn | s
        · simp [secretStage, hsk, hok, hke] at h
        · simp [secretStage, hsk, hok, hke] at h
        · simp [secretStage, hsk, hok, hke] at h
        · by_cases hin : k <:+: s
          · simp [secretStage, hsk, hok, hke, hin] at h
          · simp [secretStage, hsk, hok, hke, hin] at h; exact h.symm

/-- With checks skipped the secret stage always passes the value through. -/
theorem secretStage_skip {st : WrapperState} (v : JVal)
    (hsk : st.skipOutboundKeyChecks = true) : secretStage st v = .ok v := by
  simp [secretStage, hsk]

/-- On a non-string truthy prompt the secret stage either passes it through or
    fails with the TypeError conversion. -/
theorem secretStage_nonstr {st : WrapperState} (v : JVal)
    (hv : ∀ s, v ≠ .jstr s) :
    secretStage st v = .ok v ∨
    secretStage st v = .error (outerInternalBody (iterTypeErrText v)) := by
  cases hsk : st.skipOutboundKeyChecks with
  | true => exact .inl (secretStage_skip v hsk)
  | false =>
    cases hok : st.openrouterApiKey with
    | none => exact .inl (by simp [secretStage, hsk, hok])
    | some k =>
      by_cases hke : k.isEmpty
      · exact .inl (by simp [secretStage, hsk, hok, hke])
      · rcases v with _ | bb | nn | s
        · exact .inr (by simp [secretStage, hsk, hok, hke])
        · exact .inr (by simp [secretStage, hsk, hok, hke])
        · exact .inr (by simp [secretStage, hsk, hok, hke])
        · exact absurd rfl (hv s)

/-- A failing token stage yields the budget rejection (string prompt) or the
    TypeError conversion (non-string prompt). -/
theorem tokenStage_error_shape {st : WrapperState} {v : JVal} {b : RBody}
    (h : tokenStage st v = .error b) :
    b = budgetBody st.maxUserPromptTokens ∨
    b = outerInternalBody (encodeTypeErrText v) := by
  rcases v with _ | bb | nn | s
  · simp [tokenStage] at h; exact .inr h.symm
  · simp [tokenStage] at h; exact .inr h.symm
  · simp [tokenStage] at h; exact .inr h.symm
  · by_cases htk : st.tok s > st.maxUserPromptTokens
    · simp [tokenStage, htk] at h; exact .inl h.symm
    · simp [tokenStage, htk] at h

/-- A non-string prompt makes the token stage fail with the TypeError
    conversion (the tokenizer requires a string). -/
theorem tokenStage_nonstr {st : WrapperState} (v : JVal) (hv : ∀ s, v ≠ .jstr s) :
    tokenStage st v = .error (outerInternalBody (encodeTypeErrText v)) := by
  rcases v with _ | bb | nn | s
  · rfl
  · rfl
  · rfl
  · exact absurd rfl (hv s)

/-- The budget data never coincides with the presence data. -/
theorem budget_data_ne_presence (x : List Char) :
    ("Prompt exceeds maximum length of ".toList ++ x ++ " tokens".toList) ≠
    ("Missing required ".toList ++ squote ++ "prompt".toList ++ squote ++
      " argument".toList) := by
  intro h
  have h3 := congrArg (List.take 3) h
  have hL : List.take 3 ("Prompt exceeds maximum length of ".toList ++ x ++
      " tokens".toList) = ['P', 'r', 'o'] := rfl
  have hR : List.take 3 ("Missing required ".toList ++ squote ++ "prompt".toList ++
      squote ++ " argument".toList) = ['M', 'i', 's'] := rfl
  rw [hL, hR] at h3
  exact absurd h3 (by decide)

/-- For a registered tool and a truthy prompt value, the response body is
    never the presence rejection. -/
theorem truthy_prompt_not_presence (st : WrapperState) (rid : RId) (n : List Char)
    (args : ToolCallArgs) (sb : SinkBehavior) (out : HttpOutcome) (v : JVal)
    (hreg : n ∈ st.tools) (hprompt : args.prompt = some v)
    (htr : truthy v = true) :
    (handle_request st (.toolsCall rid (some n) args) sb out).response.body ≠
      presenceBody := by
  have heq := handleToolsCall_eq st rid n args sb out v hreg hprompt htr
  have hhr : handle_request st (.toolsCall rid (some n) args) sb out =
      handleToolsCall st rid (some n) args sb out := rfl
  rw [hhr, heq]
  rcases hsek : secretStage st v with b | v'
  · simp only [hsek, Except.bind, bind]
    rcases secretStage_error_shape hsek with rfl | rfl
    · exact err_msg_ne (by decide) _ _ _ _
    · exact err_msg_ne (by decide) _ _ _ _
  · have hv' : v' = v := secretStage_ok_value hsek
    rw [hv']
    simp only [bind, Except.bind]
    rcases htkk : tokenStage st v with b | s'
    · rcases tokenStage_error_shape htkk with rfl | rfl
      · exact err_data_ne (budget_data_ne_presence _) _ _ _ _
      · exact err_msg_ne (by decide) _ _ _ _
    · simp only [bind, Except.bind]
      rcases hms : modelStage args.model with b | mtu
      · rcases modelStage_error_shape hms with ⟨e, rfl⟩ | ⟨w, rfl⟩
        · obtain ⟨d, hd⟩ := modelErrBody_msg e
          show modelErrBody e ≠ presenceBody
          rw [hd]
          exact err_msg_ne (by decide) _ _ _ _
        · exact err_msg_ne (by decide) _ _ _ _
      · rcases dispatch_body_shape st mtu sb out with ⟨t, hb⟩ | ⟨m, hb⟩
        · show (dispatchStage st mtu sb out).body ≠ presenceBody
          rw [hb]
          exact content_ne_err _ _ _ _
        · show (dispatchStage st mtu sb out).body ≠ presenceBody
          rw [hb]
          exact err_code_ne (by decide) _ _ _ _

/-- C10: the presence rejection fires exactly for an absent or falsy prompt;
    a truthy non-string prompt passes the presence check and fails later with
    a -32000 TypeError conversion (never as InvalidParams); with outbound
    checks disabled it is precisely the token-counting step that fails,
    i.e. the value reaches token counting. -/
theorem prompt_presence_exact (st : WrapperState) (rid : RId) (n : List Char)
    (args : ToolCallArgs) (sb : SinkBehavior) (out : HttpOutcome)
    (hreg : n ∈ st.tools) :
    ((handle_request st (.toolsCall rid (some n) args) sb out).response.body =
        presenceBody ↔
      (args.prompt = none ∨ ∃ v, args.prompt = some v ∧ truthy v = false)) ∧
    (∀ v, args.prompt = some v → truthy v = true → (∀ s, v ≠ .jstr s) →
      ((handle_request st (.toolsCall rid (some n) args) sb out).response.body =
          outerInternalBody (iterTypeErrText v) ∨
       (handle_request st (.toolsCall rid (some n) args) sb out).response.body =
          outerInternalBody (encodeTypeErrText v))) ∧
    (∀ v, args.prompt = some v → truthy v = true → (∀ s, v ≠ .jstr s) →
      st.skipOutboundKeyChecks = true →
      (handle_request st (.toolsCall rid (some n) args) sb out).response.body =
        outerInternalBody (encodeTypeErrText v)) := by
  refine ⟨⟨?_, ?_⟩, ?_, ?_⟩
  · intro hbody
    by_contra hcon
    push_neg at hcon
    obtain ⟨h1, h2⟩ := hcon
    rcases hv : args.prompt with _ | v
    · exact h1 hv
    · have htr : truthy v = true := by
        have := h2 v hv
        revert this
        cases truthy v <;> simp
      exact truthy_prompt_not_presence st rid n args sb out v hreg hv htr hbody
  · intro hfalsy
    have hpres : presenceStage args.prompt = .error presenceBody := by
      rcases hfalsy with h | ⟨v, hv, htr⟩
      · simp [presenceStage, h]
      · simp [presenceStage, hv, htr]
    show (handleToolsCall st rid (some n) args sb out).response.body = _
    unfold handleToolsCall
    simp [hreg, hpres, Except.bind, bind]
  · intro v hv htr hnstr
    have heq := handleToolsCall_eq st rid n args sb out v hreg hv htr
    have hhr : handle_request st (.toolsCall rid (some n) args) sb out =
        handleToolsCall st rid (some n) args sb out := rfl
    rw [hhr, heq]
    rcases @secretStage_nonstr st v hnstr with hsec | hsec
    · right
      simp only [hsec, @tokenStage_nonstr st v hnstr, Except.bind, bind]
    · left
      simp only [hsec, Except.bind, bind]
  · intro v hv htr hnstr hsk
    have heq := handleToolsCall_eq st rid n args sb out v hreg hv htr
    have hhr : handle_request st (.toolsCall rid (some n) args) sb out =
        handleToolsCall st rid (some n) args sb out := rfl
    rw [hhr, heq]
    simp only [@secretStage_skip st v hsk,
      @tokenStage_nonstr st v hnstr, Except.bind, bind]

/-- Witness for C10: an absent prompt and the falsy prompts are rejected with
    the presence error; the truthy non-string prompt 5 instead fails at token
    counting with a -32000 TypeError conversion. -/
theorem prompt_presence_exact_witness :
    (handle_request st0 (.toolsCall (some 1) (some "llm_call".toList) ⟨none, none⟩)
        sbOk (.success "ok".toList)).response.body = presenceBody ∧
    (handle_request st0
        (.toolsCall (some 1) (some "llm_call".toList) (argsP (.jstr [])))
        sbOk (.success "ok".toList)).response.body = presenceBody ∧
    (handle_request st0
        (.toolsCall (some 1) (some "llm_call".toList) (argsP (.jnum 5)))
        sbOk (.success "ok".toList)).response.body =
      outerInternalBody (encodeTypeErrText (.jnum 5)) := by
  refine ⟨?_, ?_, ?_⟩
  · exact (prompt_presence_exact st0 (some 1) "llm_call".toList ⟨none, none⟩ sbOk
      (.success "ok".toList) (by decide)).1.mpr (Or.inl rfl)
  · exact (prompt_presence_exact st0 (some 1) "llm_call".toList
      (argsP (.jstr [])) sbOk (.success "ok".toList) (by decide)).1.mpr
      (Or.inr ⟨.jstr [], rfl, rfl⟩)
  · exact (prompt_presence_exact st0 (some 1) "llm_call".toList (argsP (.jnum 5))
      sbOk (.success "ok".toList) (by decide)).2.2 (.jnum 5) rfl (by decide)
      (fun s => by simp) rfl

/-- Splitting a separator-free list yields the single piece. -/
theorem splitOnChar_not_mem {sep : Char} : ∀ {l : List Char}, sep ∉ l →
    splitOnChar sep l = [l] := by
  intro l
  induction l with
  | nil => intro _; rfl
  | cons c rest ih =>
    intro h
    have hc : ¬ c = sep := fun hcc => h (by simp [hcc])
    have hrest : sep ∉ rest := fun hm => h (by simp [hm])
    simp [splitOnChar, hc, ih hrest]

/-- Splitting a list with exactly one separator yields the two sides. -/
theorem splitOnChar_single {a b : List Char} (ha : '/' ∉ a) (hb : '/' ∉ b) :
    splitOnChar '/' (a ++ '/' :: b) = [a, b] := by
  induction a with
  | nil => simp [splitOnChar, splitOnChar_not_mem hb]
  | cons c a' ih =>
    have hc : ¬ c = '/' := fun hcc => ha (by simp [hcc])
    have ha' : '/' ∉ a' := fun hm => ha (by simp [hm])
    simp [splitOnChar, hc, ih ha']

/-- C5 counterexample: the string "a" lacks a slash, yet the validator fails
    with the "too short" classification (the length check runs first), not
    with "missing separator" as the claim requires for every slash-free
    string. -/
theorem missing_separator_counterexample :
    ¬ ('/' ∈ "a".toList) ∧
    validate_model "a".toList = .error .tooShort ∧
    validate_model "a".toList ≠ .error .missingSeparator := by
  refine ⟨by decide, by decide, by decide⟩

/-- C5 amended: a string lacking a slash fails with "missing separator"
    PROVIDED its trimmed length is at least 2 (shorter strings fail with "too
    short" first); a string whose trimmed form has exactly one slash with both
    sides non-empty (and trimmed length at least 2) validates successfully and
    is returned trimmed, with no further normalization. -/
theorem model_name_validation_exact :
    (∀ raw : List Char, '/' ∉ trimChars raw → 2 ≤ (trimChars raw).length →
      validate_model raw = .error .missingSeparator) ∧
    (∀ (raw a b : List Char), trimChars raw = a ++ '/' :: b →
      '/' ∉ a → '/' ∉ b → a ≠ [] → b ≠ [] → 2 ≤ (trimChars raw).length →
      validate_model raw = .ok (trimChars raw)) := by
  constructor
  · intro raw hmem hlen
    unfold validate_model
    rw [if_neg (by omega), if_pos (by simpa using hmem)]
  · intro raw a b hsplit ha hb hane hbne hlen
    unfold validate_model
    rw [if_neg (by omega)]
    rw [if_neg (by simp [hsplit])]
    rw [if_neg ?_]
    rw [hsplit, splitOnChar_single ha hb]
    simp [List.isEmpty_iff, hane, hbne]

/-- Witness for amended C5: "noslash" fails with "missing separator";
    " ab/cd " validates to its trimmed form "ab/cd". -/
theorem model_name_validation_exact_witness :
    validate_model "noslash".toList = .error .missingSeparator ∧
    validate_model " ab/cd ".toList = .ok "ab/cd".toList := by
  constructor
  · exact model_name_validation_exact.1 "noslash".toList (by decide) (by decide)
  · have h := model_name_validation_exact.2 " ab/cd ".toList "ab".toList
      "cd".toList (by decide) (by decide) (by decide) (by decide) (by decide)
      (by decide)
    rw [h]
    decide

theorem replaceGo_nil (key repl : List Char) (fuel : Nat) :
    replaceGo key repl fuel [] = [] := by
  cases fuel <;> rfl

theorem replaceGo_pos (key repl : List Char) (fuel : Nat) (c : Char)
    (rest : List Char) (h : key ≠ [] ∧ key <+: (c :: rest)) :
    replaceGo key repl (fuel + 1) (c :: rest) =
      repl ++ replaceGo key repl fuel ((c :: rest).drop key.length) := by
  simp only [replaceGo]
  rw [if_pos h]

theorem replaceGo_neg (key repl : List Char) (fuel : Nat) (c : Char)
    (rest : List Char) (h : ¬ (key ≠ [] ∧ key <+: (c :: rest))) :
    replaceGo key repl (fuel + 1) (c :: rest) = c :: replaceGo key repl fuel rest := by
  simp only [replaceGo]
  rw [if_neg h]

/-- Two prefixes of the same list are comparable. -/
theorem pre_of_append {y a b : List Char} (h : y <+: a ++ b) :
    y <+: a ∨ a <+: y := by
  induction a generalizing y with
  | nil => exact .inr (List.nil_prefix)
  | cons c a' ih =>
    cases y with
    | nil => exact .inl (List.nil_prefix)
    | cons d y' =>
      rw [List.cons_append] at h
      obtain ⟨rfl, h'⟩ := List.cons_prefix_cons.mp h
      rcases ih h' with h1 | h1
      · exact .inl (List.cons_prefix_cons.mpr ⟨rfl, h1⟩)
      · exact .inr (List.cons_prefix_cons.mpr ⟨rfl, h1⟩)

/-- An infix of an append lies in the left part, in the right part, or
    straddles the boundary (a non-empty suffix of the left part glued to a
    prefix of the right part). -/
theorem infix_append_cases {y a b : List Char} (h : y <:+: a ++ b) :
    y <:+: a ∨ y <:+: b ∨
    ∃ y₁ y₂, y = y₁ ++ y₂ ∧ y₁ ≠ [] ∧ y₁ <:+ a ∧ y₂ <+: b := by
  induction a generalizing y with
  | nil => exact .inr (.inl (by simpa using h))
  | cons c a' ih =>
    rw [List.cons_append] at h
    rcases List.infix_cons_iff.mp h with h1 | h1
    · rw [← List.cons_append] at h1
      rcases pre_of_append h1 with h2 | h2
      · exact .inl h2.isInfix
      · obtain ⟨y₂, rfl⟩ := h2
        have hy₂ : y₂ <+: b := ( List.prefix_append_right_inj (c :: a')).mp h1
        exact .inr (.inr ⟨c :: a', y₂, rfl, by simp, List.suffix_rfl, hy₂⟩)
    · rcases ih h1 with h2 | h2 | ⟨y₁, y₂, rfl, hne, hsuf, hpre⟩
      · exact .inl (h2.trans ( List.IsSuffix.isInfix (List.suffix_cons c a')))
      · exact .inr (.inl h2)
      · exact .inr (.inr ⟨y₁, y₂, rfl, hne, hsuf.trans (List.suffix_cons c a'), hpre⟩)

/-- No non-empty suffix of the placeholder is a prefix of an "sk-" key. -/
theorem ph_suffix_no_sk (t r : List Char) (ht : t <:+ PLACEHOLDER)
    (hp : t <+: 's' :: 'k' :: '-' :: r) : t = [] := by
  have ht' : t ∈ PLACEHOLDER.tails := (List.mem_tails t PLACEHOLDER).mpr ht
  fin_cases ht' <;> simp_all [List.cons_prefix_cons]

/-- An "sk-" key is a prefix of no suffix of the placeholder. -/
theorem ph_suffix_no_key_start (t r : List Char) (ht : t <:+ PLACEHOLDER) :
    ¬ ('s' :: 'k' :: '-' :: r) <+: t := by
  have ht' : t ∈ PLACEHOLDER.tails := (List.mem_tails t PLACEHOLDER).mpr ht
  fin_cases ht' <;> simp_all [List.cons_prefix_cons]

/-- An "sk-" key never occurs inside the placeholder. -/
theorem key_not_infix_ph (r : List Char) :
    ¬ ('s' :: 'k' :: '-' :: r) <:+: PLACEHOLDER := by
  intro h
  obtain ⟨t, hpre, hsuf⟩ := List.infix_iff_prefix_suffix.mp h
  exact ph_suffix_no_key_start t r hsuf hpre

/-- A parenthesis-free prefix of a replacement result is a prefix of the
    original list: the replacement can only add text starting with "(". -/
theorem pre_replace_no_paren {key : List Char} :
    ∀ (fuel : Nat) (s y : List Char), s.length ≤ fuel → '(' ∉ y →
      y <+: replaceGo key PLACEHOLDER fuel s → y <+: s := by
  intro fuel
  induction fuel with
  | zero =>
    intro s y hlen hy hpre
    cases s with
    | nil => simpa [replaceGo_nil] using hpre
    | cons c rest => simp at hlen
  | succ n ih =>
    intro s y hlen hy hpre
    cases s with
    | nil => simpa [replaceGo_nil] using hpre
    | cons c rest =>
      by_cases hmatch : key ≠ [] ∧ key <+: (c :: rest)
      · rw [replaceGo_pos _ _ _ _ _ hmatch] at hpre
        rcases pre_of_append hpre with h1 | h1
        · cases y with
          | nil => exact List.nil_prefix
          | cons d y' =>
            exfalso
            have hPH : PLACEHOLDER =
                '(' :: "API key redacted due to security reasons)".toList := by decide
            rw [hPH] at h1
            obtain ⟨rfl, -⟩ := List.cons_prefix_cons.mp h1
            exact hy (by simp)
        · exfalso
          obtain ⟨t, ht⟩ := h1
          apply hy
          rw [← ht]
          exact List.mem_append.mpr (.inl (by decide))
      · rw [replaceGo_neg _ _ _ _ _ hmatch] at hpre
        cases y with
        | nil => exact List.nil_prefix
        | cons d y' =>
          obtain ⟨rfl, h'⟩ := List.cons_prefix_cons.mp hpre
          have hy' : '(' ∉ y' := fun hm => hy (by simp [hm])
          have hlen' : rest.length ≤ n := by
            simp only [List.length_cons] at hlen
            omega
          exact List.cons_prefix_cons.mpr ⟨rfl, ih rest y' hlen' hy' h'⟩

/-- Core of C6 (amended): for a parenthesis-free "sk-" credential, the
    credential never occurs in the result of the replacement. -/
theorem key_no_occurrence (r : List Char) (hparen : '(' ∉ ('s' :: 'k' :: '-' :: r)) :
    ∀ (fuel : Nat) (s : List Char), s.length ≤ fuel →
      ¬ ('s' :: 'k' :: '-' :: r) <:+:
          replaceGo ('s' :: 'k' :: '-' :: r) PLACEHOLDER fuel s := by
  intro fuel
  induction fuel with
  | zero =>
    intro s hlen h
    cases s with
    | nil =>
      rw [replaceGo_nil] at h
      have := h.length_le
      simp at this
    | cons c rest => simp at hlen
  | succ n ih =>
    intro s hlen h
    cases s with
    | nil =>
      rw [replaceGo_nil] at h
      have := h.length_le
      simp at this
    | cons c rest =>
      by_cases hmatch : ('s' :: 'k' :: '-' :: r) ≠ [] ∧
          ('s' :: 'k' :: '-' :: r) <+: (c :: rest)
      · rw [replaceGo_pos _ _ _ _ _ hmatch] at h
        rcases infix_append_cases h with h1 | h1 | ⟨y₁, y₂, hky, hne, hsuf, hpre2⟩
        · exact key_not_infix_ph r h1
        · refine ih _ ?_ h1
          simp only [List.length_drop, List.length_cons]
          simp only [List.length_cons] at hlen
          omega
        · exact hne (ph_suffix_no_sk y₁ r hsuf ⟨y₂, hky.symm⟩)
      · rw [replaceGo_neg _ _ _ _ _ hmatch] at h
        rcases List.infix_cons_iff.mp h with h1 | h1
        · rw [← replaceGo_neg ('s' :: 'k' :: '-' :: r) PLACEHOLDER n c rest hmatch]
            at h1
          have := pre_replace_no_paren (n + 1) (c :: rest) _ hlen hparen h1
          exact hmatch ⟨by simp, this⟩
        · refine ih rest ?_ h1
          simp only [List.length_cons] at hlen
          omega

/-- Replacement is the identity on a list without an occurrence of the key. -/
theorem replaceGo_id_of_no_occurrence {key repl : List Char} :
    ∀ (fuel : Nat) (s : List Char), s.length ≤ fuel → ¬ key <:+: s →
      replaceGo key repl fuel s = s := by
  intro fuel
  induction fuel with
  | zero =>
    intro s hlen h
    cases s with
    | nil => exact replaceGo_nil key repl 0
    | cons c rest => simp at hlen
  | succ n ih =>
    intro s hlen h
    cases s with
    | nil => exact replaceGo_nil key repl (n + 1)
    | cons c rest =>
      have hnp : ¬ (key ≠ [] ∧ key <+: (c :: rest)) := by
        rintro ⟨hne, hpre⟩
        exact h hpre.isInfix
      rw [replaceGo_neg _ _ _ _ _ hnp]
      have hlen' : rest.length ≤ n := by
        simp only [List.length_cons] at hlen
        omega
      have hrest : ¬ key <:+: rest :=
        fun hi => h (hi.trans ( List.IsSuffix.isInfix (List.suffix_cons c rest)))
      rw [ih rest hlen' hrest]

/-- C6 counterexample: the format-valid credential keyParen (which ends in a
    parenthesis, overlapping the start of the placeholder) both survives a
    redaction of textParen and breaks idempotence, refuting "the secret never
    remains in the output" and "redact(redact t) = redact t" as stated for
    every validated credential. -/
theorem redact_leaves_secret_counterexample :
    (skPre <+: keyParen ∧ 32 ≤ keyParen.length) ∧
    keyParen <:+: textParen ∧
    keyParen <:+: redact_api_key false keyParen textParen ∧
    redact_api_key false keyParen (redact_api_key false keyParen textParen) ≠
      redact_api_key false keyParen textParen := by
  exact ⟨by decide, by decide, by decide, by decide⟩

/-- C6 amended: redact returns the text unchanged when the credential does not
    occur in it; and for a credential of the shape "sk-..." that contains no
    parenthesis character (true of real keys; the counterexample shows some
    restriction is needed), the credential never remains in the redacted
    output and redaction is idempotent. -/
theorem redact_never_leaves_secret_and_idempotent (r text : List Char)
    (hparen : '(' ∉ ('s' :: 'k' :: '-' :: r)) :
    (¬ ('s' :: 'k' :: '-' :: r) <:+: text →
      redact_api_key false ('s' :: 'k' :: '-' :: r) text = text) ∧
    ¬ ('s' :: 'k' :: '-' :: r) <:+:
        redact_api_key false ('s' :: 'k' :: '-' :: r) text ∧
    redact_api_key false ('s' :: 'k' :: '-' :: r)
        (redact_api_key false ('s' :: 'k' :: '-' :: r) text) =
      redact_api_key false ('s' :: 'k' :: '-' :: r) text := by
  have hid : ∀ t : List Char, ¬ ('s' :: 'k' :: '-' :: r) <:+: t →
      redact_api_key false ('s' :: 'k' :: '-' :: r) t = t := by
    intro t hno
    simp only [redact_api_key, Bool.false_eq_true, if_false]
    rw [if_neg (fun hc => hno hc.2)]
  have hnoocc : ¬ ('s' :: 'k' :: '-' :: r) <:+:
      redact_api_key false ('s' :: 'k' :: '-' :: r) text := by
    by_cases hin : ('s' :: 'k' :: '-' :: r) <:+: text
    · have hred : redact_api_key false ('s' :: 'k' :: '-' :: r) text =
          replaceList ('s' :: 'k' :: '-' :: r) PLACEHOLDER text := by
        simp only [redact_api_key, Bool.false_eq_true, if_false]
        rw [if_pos ⟨by simp, hin⟩]
      rw [hred]
      exact key_no_occurrence r hparen text.length text le_rfl
    · rw [hid text hin]
      exact hin
  exact ⟨hid text, hnoocc, hid _ hnoocc⟩

/-- Witness for amended C6 at a concrete parenthesis-free key and a text
    containing it. -/
theorem redact_never_leaves_secret_and_idempotent_witness :
    ('(' ∉ ('s' :: 'k' :: '-' :: "00000000000000000000000000000".toList)) ∧
    ¬ ('s' :: 'k' :: '-' :: "00000000000000000000000000000".toList) <:+:
        redact_api_key false
          ('s' :: 'k' :: '-' :: "00000000000000000000000000000".toList)
          ("use ".toList ++ validKey ++ " now".toList) ∧
    redact_api_key false ('s' :: 'k' :: '-' :: "00000000000000000000000000000".toList)
        (redact_api_key false
          ('s' :: 'k' :: '-' :: "00000000000000000000000000000".toList)
          ("use ".toList ++ validKey ++ " now".toList)) =
      redact_api_key false
        ('s' :: 'k' :: '-' :: "00000000000000000000000000000".toList)
        ("use ".toList ++ validKey ++ " now".toList) := by
  have h := redact_never_leaves_secret_and_idempotent
    "00000000000000000000000000000".toList
    ("use ".toList ++ validKey ++ " now".toList) (by decide)
  exact ⟨by decide, h.2.1, h.2.2⟩

end LlmWrap
